import Mathlib

/-!
Verification development for the job-orchestration core of the
Desktop-App-GROK-META-WHISK repository (src/main/orchestrator.js and
src/main/database.js), shallowly embedded in Lean 4.

JavaScript strings stay `String`; optional / possibly-`undefined` fields are
`Option String`; JS truthiness of such a field is `jsTruthy` (both `undefined`
and the empty string are falsy).  Timestamps are `Nat` milliseconds.  The
filesystem is an oracle `fs : String → Bool` standing for `fs.existsSync`.
Output-file naming is out of scope of the core (spec §1), so computed output
paths enter the model as plain data.
-/

namespace Orch

/-- JS truthiness of a possibly-undefined string field: `undefined` and `""`
are falsy, every other string is truthy. -/
def jsTruthy : Option String → Bool
  | none => false
  | some s => s ≠ ""

/-- `a || b` on a possibly-undefined string with a string default, as used by
`jobDef.prompt || ''` in the source. -/
def jsOrElse (a : Option String) (b : String) : String :=
  match a with
  | none => b
  | some s => if s = "" then b else s

/-- Opaque per-provider option bag (`options` in the source); its contents are
never inspected by the orchestration core, only passed through. -/
structure JobOptions where
  aspectRatio : Option String := none
  duration : Option String := none
  resolution : Option String := none
  model : Option String := none
  animationPrompt : Option String := none
deriving Repr, DecidableEq

/-- A job definition as submitted by the caller (`jobDef` in orchestrator.js).
Fields may be absent (`undefined`). -/
structure JobDef where
  provider : Option String := none
  type : Option String := none
  prompt : Option String := none
  image : Option String := none
  options : JobOptions := {}
  outputFolder : Option String := none
deriving Repr, DecidableEq

/-- Provider capability descriptor (orchestrator.js `CAPABILITIES` values). -/
structure Capability where
  name : String
  types : List String
  method : String
  timeout : Nat
deriving Repr, DecidableEq

/-- The static `CAPABILITIES` table of orchestrator.js, keyed by provider. -/
def CAPABILITIES : String → Option Capability
  | "meta" => some ⟨"Meta AI", ["image-to-video", "text-to-video", "text-to-image"], "playwright", 300⟩
  | "grok" => some ⟨"Grok AI", ["image-to-video", "text-to-video", "text-to-image"], "playwright", 180⟩
  | "whisk" => some ⟨"Google Whisk", ["image-to-video", "text-to-image"], "api", 60⟩
  | "imagefx" => some ⟨"Google ImageFX", ["text-to-image"], "api", 60⟩
  | _ => none

/-- `VALID_PROVIDERS` from orchestrator.js. -/
def VALID_PROVIDERS : List String := ["meta", "grok", "whisk", "imagefx"]

/-- `VALID_TYPES` from orchestrator.js. -/
def VALID_TYPES : List String := ["image-to-video", "text-to-video", "text-to-image"]

/-- `validateJob` lines 113-117: the `provider` checks (missing, then
unknown), contributing at most one error. -/
def vProviderErrs (job : JobDef) : List String :=
  if ¬ jsTruthy job.provider then
    ["Missing required field \"provider\""]
  else if ¬ VALID_PROVIDERS.contains (job.provider.getD "") then
    ["Unknown provider \"" ++ job.provider.getD "" ++ "\". Valid: " ++
      String.intercalate ", " VALID_PROVIDERS]
  else []

/-- `validateJob` lines 119-123: the `type` checks (missing, then unknown). -/
def vTypeErrs (job : JobDef) : List String :=
  if ¬ jsTruthy job.type then
    ["Missing required field \"type\""]
  else if ¬ VALID_TYPES.contains (job.type.getD "") then
    ["Unknown type \"" ++ job.type.getD "" ++ "\". Valid: " ++
      String.intercalate ", " VALID_TYPES]
  else []

/-- `validateJob` lines 125-127: `prompt` required unless the type field
equals `image-to-video`. -/
def vPromptErrs (job : JobDef) : List String :=
  if ¬ jsTruthy job.prompt ∧ job.type ≠ some "image-to-video" then
    ["Missing required field \"prompt\""]
  else []

/-- `validateJob` lines 130-134: provider-type compatibility.  The source
guard is `job.provider && job.type && CAPABILITIES[job.provider]` — the type
need only be *present* (truthy), not itself a known type. -/
def vCompatErrs (job : JobDef) : List String :=
  match CAPABILITIES (job.provider.getD "") with
  | some cap =>
      if jsTruthy job.provider ∧ jsTruthy job.type ∧
          ¬ cap.types.contains (job.type.getD "") then
        [cap.name ++ " does not support " ++ job.type.getD "" ++
          ". Supported: " ++ String.intercalate ", " cap.types]
      else []
  | none => []

/-- `validateJob` lines 137-143: for `image-to-video`, an image path is
required (missing, then not-on-disk; at most one error). -/
def vImageErrs (fs : String → Bool) (job : JobDef) : List String :=
  if job.type = some "image-to-video" then
    if ¬ jsTruthy job.image then
      ["Image path required for image-to-video"]
    else if ¬ fs (job.image.getD "") then
      ["Image file not found: " ++ job.image.getD ""]
    else []
  else []

/-- `Orchestrator.validateJob` (lines 110-146): every check runs, errors are
collected in source order, never short-circuiting.  `fs` is the
`fs.existsSync` oracle. -/
def validateJob (fs : String → Bool) (job : JobDef) : List String :=
  vProviderErrs job ++ vTypeErrs job ++ vPromptErrs job ++
    vCompatErrs job ++ vImageErrs fs job

/-! ## Job Store (database.js) -/

/-- A persisted job record (the entry built by `Database.addJob`).  ISO
timestamp strings are modelled as `Nat` milliseconds; `completedAt` and
`duration` start out `null`. -/
structure Job where
  id : String
  provider : String
  type : String
  prompt : String
  imagePath : Option String
  outputPath : Option String
  status : String
  error : Option String
  attempts : Nat
  options : JobOptions
  batchId : Option String
  videoUrl : Option String
  createdAt : Nat
  completedAt : Option Nat
  duration : Option Nat
deriving Repr, DecidableEq

/-- The Job Store state: `this.data.jobs`, newest first. -/
abbrev Db := List Job

/-- Input fields of `Database.addJob` (the `job` argument). -/
structure NewJob where
  provider : String
  type : String
  prompt : Option String := none
  imagePath : Option String := none
  outputPath : Option String := none
  status : Option String := none
  error : Option String := none
  attempts : Option Nat := none
  options : JobOptions := {}
  batchId : Option String := none
  videoUrl : Option String := none
deriving Repr, DecidableEq

/-- `Database.addJob`: builds the entry (defaults as in the source: status
defaults to `pending`, `completedAt`/`duration` start `null`), unshifts it,
and keeps only the newest 2000 entries.  `freshId` stands for the generated
`job_${Date.now()}_${random}` id and `now` for `Date.now()`.  Returns the
entry and the new store. -/
def addJob (db : Db) (job : NewJob) (freshId : String) (now : Nat) : Job × Db :=
  let entry : Job :=
    { id := freshId
      provider := job.provider
      type := job.type
      prompt := job.prompt.getD ""
      imagePath := job.imagePath
      outputPath := job.outputPath
      status := job.status.getD "pending"
      error := job.error
      attempts := job.attempts.getD 0
      options := job.options
      batchId := job.batchId
      videoUrl := job.videoUrl
      createdAt := now
      completedAt := none
      duration := none }
  (entry, (entry :: db).take 2000)

/-- A partial update passed to `Database.updateJob` by the orchestrator.
`none` means the field is absent from the update object; `some none` models
an explicit `null` (as in `error: null`). -/
structure JobUpdate where
  status : Option String := none
  error : Option (Option String) := none
  outputPath : Option (Option String) := none
  videoUrl : Option (Option String) := none
  attempts : Option Nat := none
deriving Repr, DecidableEq

/-- `Math.round((completedAt - createdAt) / 1000)` on millisecond `Nat`s. -/
def durationSecs (createdAt completedAt : Nat) : Nat :=
  (completedAt - createdAt + 500) / 1000

/-- The in-place mutation `Database.updateJob` performs on the found record:
`Object.assign(job, updates)`, then, exactly when the update's `status` is
`success` or `failed`, stamp `completedAt` and derive `duration`. -/
def applyUpdate (now : Nat) (u : JobUpdate) (j : Job) : Job :=
  let j' : Job :=
    { j with
      status := u.status.getD j.status
      error := u.error.getD j.error
      outputPath := u.outputPath.getD j.outputPath
      videoUrl := u.videoUrl.getD j.videoUrl
      attempts := u.attempts.getD j.attempts }
  if u.status = some "success" ∨ u.status = some "failed" then
    { j' with
      completedAt := some now
      duration := some (durationSecs j'.createdAt now) }
  else j'

/-- `Database.updateJob` on the store: `find` locates the first record with
the id and mutates it in place; a missing id leaves the store unchanged. -/
def updateJobDb (db : Db) (id : String) (u : JobUpdate) (now : Nat) : Db :=
  match db with
  | [] => []
  | j :: rest =>
      if j.id = id then applyUpdate now u j :: rest
      else j :: updateJobDb rest id u now

/-- `Database.getJob`: first record with the id, or `null`. -/
def getJob (db : Db) (id : String) : Option Job :=
  db.find? (fun j => j.id = id)

/-- A sequence of in-place store updates applied to one record (each pair is
the update object and the `Date.now()` at which `updateJob` ran). -/
def applyUpdates (j : Job) (us : List (JobUpdate × Nat)) : Job :=
  us.foldl (fun j p => applyUpdate p.2 p.1 j) j

/-! ## Admission Controller (class `Semaphore`, orchestrator.js lines 9-29)

The semaphore itself is two methods on `(max, count, queue)`.  To speak about
"in-flight executions" we pair it with the set of currently running jobs: a
`submitJob`-spawned wrapper first `await`s `acquire()` and only then runs, and
its `finally` block calls `release()` exactly once.  Job identities are `Nat`
tokens; `count` is `Int` because JS `this.count--` is not clamped. -/

/-- A provider's semaphore together with the executions it guards:
`count`/`queue` are the fields of `Semaphore`, `running` is the multiset of
jobs whose `acquire()` has resolved and whose `release()` has not yet run. -/
structure SemSys where
  max : Int
  count : Int
  queue : List Nat
  running : List Nat
deriving Repr, DecidableEq

/-- `Semaphore.release()` from the source, fired by a job leaving `running`:
decrement `count`; if waiters queue is non-empty, re-increment and resume the
first waiter in FIFO order (that waiter's `acquire()` resolves, so it enters
`running`). -/
def semRelease (s : SemSys) : SemSys :=
  let s' := { s with count := s.count - 1 }
  match s'.queue with
  | [] => s'
  | w :: ws => { s' with count := s'.count + 1, queue := ws, running := w :: s'.running }

/-- One interleaving step of the guarded system.  `submitRun`/`submitWait`
are the two branches of `Semaphore.acquire()` reached by a newly spawned
wrapper; `finish` is a running execution completing: it leaves `running`
and its `finally` block calls `release()`. -/
inductive SemStep : SemSys → SemSys → Prop
  | submitRun (s : SemSys) (j : Nat) (h : s.count < s.max) :
      SemStep s { s with count := s.count + 1, running := j :: s.running }
  | submitWait (s : SemSys) (j : Nat) (h : ¬ s.count < s.max) :
      SemStep s { s with queue := s.queue ++ [j] }
  | finish (s : SemSys) (j : Nat) (h : j ∈ s.running) :
      SemStep s (semRelease { s with running := s.running.erase j })

/-- The initial state of one provider's limiter: `new Semaphore(4)`, nothing
running, nothing queued. -/
def initSem : SemSys := { max := 4, count := 0, queue := [], running := [] }

/-- States reachable from `initSem` by any interleaving of submissions and
completions. -/
def SemReachable (s : SemSys) : Prop :=
  Relation.ReflTransGen SemStep initSem s

/-- The inductive invariant tying the counter to the in-flight set. -/
def SemInv (s : SemSys) : Prop :=
  s.count = (s.running.length : Int) ∧ s.count ≤ s.max

/-! ## Wrapper task spawned by `submitJob` (orchestrator.js lines 291-303)

The fire-and-forget async function is a fixed sequence of effects; we record
it as an event trace.  `_executeJob` never throws (its body is wrapped in
`try`/`catch`), and the `finally` block runs on every exit path, so the trace
is the same on every path. -/

/-- Effects of the `submitJob`-spawned wrapper, in program order. -/
inductive WEvent
  | incrCount
  | semAcquire
  | execJob
  | semReleaseEv
  | decrCount
  | evalTeardown
deriving Repr, DecidableEq

/-- The event trace of the wrapper: increment `_providerJobCounts` (line 292,
before the async body runs), `await sem.acquire()`, `_executeJob`, then the
`finally` block: `sem.release()`, decrement `_providerJobCounts`, and call
`_maybeCloseProvider`.  Lines 298-301 contain no `await`, so the four
trailing events are one non-interleavable step of the event loop. -/
def submitWrapperTrace : List WEvent :=
  [.incrCount, .semAcquire, .execJob, .semReleaseEv, .decrCount, .evalTeardown]

/-! ## Job execution, cancellation, retry (orchestrator.js) -/

/-- JS `a || b` on optional strings: first operand if truthy, else second. -/
def jsOrOpt (a b : Option String) : Option String :=
  if jsTruthy a then a else b

/-- JS `a || null` on an optional string. -/
def jsOrNull (a : Option String) : Option String :=
  jsOrOpt a none

/-- JS `result.attempts || 1` (0 and `undefined` both fall back to 1). -/
def attemptsOr1 : Option Nat → Nat
  | none => 1
  | some n => if n = 0 then 1 else n

/-- Lookup in an association list keyed by job id. -/
def lookupEntry {α : Type} : List (String × α) → String → Option α
  | [], _ => none
  | (k, v) :: rest, id => if k = id then some v else lookupEntry rest id

/-- Removal of the entry for a job id (at most one entry per id is ever
inserted, mirroring `Map.delete`). -/
def removeEntry {α : Type} : List (String × α) → String → List (String × α)
  | [], _ => []
  | (k, v) :: rest, id => if k = id then rest else (k, v) :: removeEntry rest id

/-- Set the local `cancelled` closure variable of the execution registered
for a job id to `true` (the effect of `active.cancel()`). -/
def setFlag : List (String × Bool) → String → List (String × Bool)
  | [], _ => []
  | (k, b) :: rest, id => if k = id then (k, true) :: rest else (k, b) :: setFlag rest id

/-- The orchestrator's in-flight execution bookkeeping: `flags` holds each
in-flight `_executeJob`'s local `cancelled` variable (it survives removal
from the registry, being a closure variable); `registry` is `_activeJobs`,
mapping job id to provider. -/
structure ExecCtx where
  flags : List (String × Bool) := []
  registry : List (String × String) := []
deriving Repr, DecidableEq

/-- The registration prologue of `_executeJob` (lines 310-316): a fresh
`cancelled = false` flag, and an `_activeJobs` entry with a `cancel` thunk
that sets that flag. -/
def executeJobStart (ctx : ExecCtx) (jobId provider : String) : ExecCtx :=
  { flags := (jobId, false) :: ctx.flags
    registry := (jobId, provider) :: ctx.registry }

/-- Result object returned (or rejection raised) by a provider agent call. -/
structure AgentResult where
  success : Bool
  videoPath : Option String := none
  imagePath : Option String := none
  videoUrl : Option String := none
  imageUrl : Option String := none
  error : Option String := none
  attempts : Option Nat := none
deriving Repr, DecidableEq

/-- How the awaited agent call in `_executeJob` ends: resolution with a
result object, or a thrown exception (caught by the `catch` block). -/
inductive AgentOutcome
  | ok (r : AgentResult)
  | threw (msg : String)
deriving Repr, DecidableEq

/-- The tail of `_executeJob` (lines 406-436), entered when the agent call
settles: on a thrown exception the `catch` block records `failed`; otherwise,
if the job's `cancelled` flag is set the record is forced to `cancelled`
(regardless of the agent's own result); else `success`/`failed` is recorded
from the result.  The `finally` block removes the `_activeJobs` entry on
every path.  `dbJobOutputPath` is `dbJob.outputPath` at that point. -/
def executeJobFinish (ctx : ExecCtx) (db : Db) (jobId : String)
    (dbJobOutputPath : Option String) (outcome : AgentOutcome) (now : Nat) :
    ExecCtx × Db :=
  let cancelled := (lookupEntry ctx.flags jobId).getD false
  let db' :=
    match outcome with
    | .threw msg =>
        updateJobDb db jobId { status := some "failed", error := some (some msg) } now
    | .ok r =>
        if cancelled then
          updateJobDb db jobId { status := some "cancelled" } now
        else if r.success then
          updateJobDb db jobId
            { status := some "success"
              outputPath := some (jsOrOpt r.videoPath (jsOrOpt r.imagePath dbJobOutputPath))
              videoUrl := some (jsOrOpt r.videoUrl (jsOrNull r.imageUrl))
              attempts := some (attemptsOr1 r.attempts) } now
        else
          updateJobDb db jobId
            { status := some "failed"
              error := some r.error
              videoUrl := some (jsOrNull r.videoUrl)
              attempts := some (attemptsOr1 r.attempts) } now
  ({ ctx with registry := removeEntry ctx.registry jobId }, db')

/-- `Orchestrator.cancelJob` (lines 591-600): if the job is in `_activeJobs`,
call its `cancel` thunk (set the flag), delete the registry entry, force the
store record to `cancelled`, and return `true`; otherwise return `false`. -/
def cancelJob (ctx : ExecCtx) (db : Db) (jobId : String) (now : Nat) :
    Bool × ExecCtx × Db :=
  match lookupEntry ctx.registry jobId with
  | some _ =>
      (true,
       { flags := setFlag ctx.flags jobId
         registry := removeEntry ctx.registry jobId },
       updateJobDb db jobId { status := some "cancelled" } now)
  | none => (false, ctx, db)

/-- A live provider agent/converter instance, exposing only the liveness the
orchestrator's lifecycle logic reads (`isBrowserAlive()`). -/
structure Conv where
  alive : Bool
deriving Repr, DecidableEq

/-- `Orchestrator._maybeCloseProvider` (lines 645-658) for one provider,
acting on its pending-or-active job count, the batch `_running` flag and its
converter slot: tear the converter down (slot becomes `none`) exactly when no
jobs remain, no batch is running, and the converter exists and is alive. -/
def maybeCloseProvider (count : Nat) (batchRunning : Bool) (conv : Option Conv) :
    Option Conv :=
  if count > 0 then conv
  else if batchRunning then conv
  else
    match conv with
    | some c => if c.alive then none else some c
    | none => none

/-- Result shape of `submitJob`/`retryJob` as seen by the caller. -/
structure SubmitResult where
  success : Bool
  jobId : Option String := none
  errors : List String := []
deriving Repr, DecidableEq

/-- The arguments handed to the fire-and-forget `_executeJob` call. -/
structure SpawnedExec where
  dbJob : Job
  jobDef : JobDef
deriving Repr, DecidableEq

/-- The synchronous part of `Orchestrator.submitJob` (lines 260-306): validate
(reject with the error list, touching nothing, if non-empty); otherwise create
the store record with status `running`, increment the provider's job count
(line 292, before the wrapper task ever runs), spawn the wrapper, and return
the new id at once — the caller never waits for execution.  `outputPath` is
the precomputed `_generateOutputPath` result (file naming is outside the
core); `count` is `_providerJobCounts[jobDef.provider]`. -/
def submitJob (fs : String → Bool) (db : Db) (jd : JobDef) (outputPath : String)
    (freshId : String) (now : Nat) (count : Nat) :
    SubmitResult × Db × Nat × Option SpawnedExec :=
  let errors := validateJob fs jd
  if errors ≠ [] then
    ({ success := false, errors := errors }, db, count, none)
  else
    let added := addJob db
      { provider := jd.provider.getD ""
        type := jd.type.getD ""
        prompt := some (jsOrElse jd.prompt "")
        imagePath := jsOrNull jd.image
        outputPath := some outputPath
        status := some "running"
        options := jd.options } freshId now
    ({ success := true, jobId := some added.1.id }, added.2, count + 1,
      some ⟨added.1, jd⟩)

/-- `path.dirname`, used only to rebuild `outputFolder` in `retryJob`. -/
def dirname (s : String) : String :=
  let parts := s.splitOn "/"
  if parts.length ≤ 1 then "." else String.intercalate "/" parts.dropLast

/-- `Orchestrator.retryJob` (lines 619-639): look the record up (`Job not
found` if absent, store untouched); otherwise rebuild a definition from the
record's own provider/type/prompt/image/options, reset the record to
`running` with `error` cleared to `null`, and hand the same record (same id,
no new store entry, no re-validation) to `_executeJob`. -/
def retryJob (db : Db) (jobId : String) (now : Nat) :
    SubmitResult × Db × Option SpawnedExec :=
  match getJob db jobId with
  | none => ({ success := false, errors := ["Job not found"] }, db, none)
  | some job =>
      let jobDef : JobDef :=
        { provider := some job.provider
          type := some job.type
          prompt := some job.prompt
          image := job.imagePath
          options := job.options
          outputFolder := some (dirname (job.outputPath.getD "")) }
      let db' := updateJobDb db jobId { status := some "running", error := some none } now
      let dbJob :=
        { applyUpdate now { status := some "running", error := some none } job with
            id := jobId }
      ({ success := true, jobId := some jobId }, db', some ⟨dbJob, jobDef⟩)

/-! ## Batch pipeline (`_processProviderQueue`, orchestrator.js lines 530-585)

One provider's pipeline is a sequential loop over its queue; it shares the
batch aggregate (`completed`, `failed`) with the other pipelines, whose
interleaved increments are the oracles `eC`, `eF` (observed at the top of
each iteration — counters only ever grow).  `exec i` is the store transformer
effected by `_executeJob` (plus any concurrent store writes) for iteration
`i`; `flag i` is the value of `this._running` read at iteration `i`'s check.
The loop emits a trace of the observable events. -/

/-- `(settings.delayBetween || 10) * 1000` — the inter-job delay in ms. -/
def delayMsOf (delayBetween : Option Nat) : Nat :=
  (match delayBetween with
   | none => 10
   | some n => if n = 0 then 10 else n) * 1000

/-- Aggregate update after a job finishes (lines 560-565): re-read the stored
record; increment `completed` exactly when its status is `success`, otherwise
(any other status, or a missing record) increment `failed`. -/
def tallyOutcome (db : Db) (id : String) (c f : Nat) : Nat × Nat :=
  match getJob db id with
  | some j => if j.status = "success" then (c + 1, f) else (c, f + 1)
  | none => (c, f + 1)

/-- Observable pipeline events: the `running` transition + `batch:job-start`
for job `i`, the completion of `_executeJob` for job `i`, the `batch:progress`
emission with the aggregate snapshot, and the inter-job sleep. -/
inductive PEvent
  | jobStart (i : Nat)
  | execEnd (i : Nat)
  | progress (i completed failed : Nat)
  | delay (i ms : Nat)
deriving Repr, DecidableEq

/-- Result of one pipeline run. -/
structure PipeResult where
  db : Db
  completed : Nat
  failed : Nat
  trace : List PEvent
deriving Repr, DecidableEq

/-- `_processProviderQueue` for one provider: for each queued job, first the
early-exit check `!this._running && completed + failed > 0`; then mark the
record `running` (a `running` update never reads the clock, so the timestamp
argument is immaterial) and emit `batch:job-start`; run `_executeJob` to
completion (the loop never abandons a started job); update the aggregate from
the re-read record; emit `batch:progress`; and sleep the configured delay
unless this was the queue's last job.  `i` is the loop index, `c`/`f` the
aggregate on entry. -/
def runPipeline (flag : Nat → Bool) (exec : Nat → Db → Db) (eC eF : Nat → Nat)
    (delayMs : Nat) : List Job → Nat → Db → Nat → Nat → PipeResult
  | [], _, db, c, f => ⟨db, c, f, []⟩
  | job :: rest, i, db, c, f =>
      let c1 := c + eC i
      let f1 := f + eF i
      if ¬ flag i ∧ 0 < c1 + f1 then ⟨db, c1, f1, []⟩
      else
        let db2 := exec i (updateJobDb db job.id { status := some "running" } 0)
        let t := tallyOutcome db2 job.id c1 f1
        let r := runPipeline flag exec eC eF delayMs rest (i + 1) db2 t.1 t.2
        ⟨r.db, r.completed, r.failed,
          PEvent.jobStart i :: PEvent.execEnd i :: PEvent.progress i t.1 t.2 ::
            (if rest.isEmpty then [] else [PEvent.delay i delayMs]) ++ r.trace⟩

/-- Indices of `jobStart` events, in trace order. -/
def startIdxs (tr : List PEvent) : List Nat :=
  tr.filterMap fun e =>
    match e with
    | .jobStart i => some i
    | _ => none

/-- Projection to execution events: `(false, i)` for job `i` starting,
`(true, i)` for job `i`'s execution ending. -/
def execEvs (tr : List PEvent) : List (Bool × Nat) :=
  tr.filterMap fun e =>
    match e with
    | .jobStart i => some (false, i)
    | .execEnd i => some (true, i)
    | _ => none

/-- Projection to the sleeps: `(i, ms)` for the delay slept after job `i`. -/
def delayEvs (tr : List PEvent) : List (Nat × Nat) :=
  tr.filterMap fun e =>
    match e with
    | .delay i ms => some (i, ms)
    | _ => none

/-- `[s, s+1, ..., s+n-1]`. -/
def countUp : Nat → Nat → List Nat
  | _, 0 => []
  | s, n + 1 => s :: countUp (s + 1) n

/-! ## Whole-orchestrator state and `cancelAll` -/

/-- The orchestrator state touched by `cancelAll`: in-flight bookkeeping, the
store, the batch `_running` flag and the converter slots. -/
structure OrchState where
  ctx : ExecCtx
  db : Db
  running : Bool
  converters : List (String × Option Conv)
deriving Repr, DecidableEq

/-- `Orchestrator.cancelAll` (lines 602-617): flag every active job cancelled
and force its record to `cancelled`, clear the registry, clear the batch
`_running` flag, and stop and null out every converter. -/
def cancelAll (st : OrchState) (now : Nat) : OrchState :=
  { ctx :=
      { flags := st.ctx.registry.foldl (fun fl e => setFlag fl e.1) st.ctx.flags
        registry := [] }
    db := st.ctx.registry.foldl
      (fun d e => updateJobDb d e.1 { status := some "cancelled" } now) st.db
    running := false
    converters := st.converters.map (fun p => (p.1, none)) }

/-! ## The validation rules as the specification states them

For the refinement claim about `validateJob` we restate the rule list in the
specification's own words and count violated rules, to compare with the
number of errors the source collects. -/

/-- Spec rule 1: `provider` required and one of the four known values. -/
def ruleProviderOk (job : JobDef) : Bool :=
  jsTruthy job.provider && VALID_PROVIDERS.contains (job.provider.getD "")

/-- Spec rule 2: `type` required and one of the three known values. -/
def ruleTypeOk (job : JobDef) : Bool :=
  jsTruthy job.type && VALID_TYPES.contains (job.type.getD "")

/-- Spec rule 3: `prompt` required unless `type == image-to-video`. -/
def rulePromptOk (job : JobDef) : Bool :=
  jsTruthy job.prompt || job.type == some "image-to-video"

/-- The provider's supported-types set, empty for unknown providers. -/
def supportedTypes (job : JobDef) : List String :=
  match CAPABILITIES (job.provider.getD "") with
  | some cap => cap.types
  | none => []

/-- Spec rule 4 exactly as the claim words it: *when provider and type are
both valid*, `type` must be in the provider's supported-types set. -/
def ruleCompatSpecOk (job : JobDef) : Bool :=
  !(ruleProviderOk job && ruleTypeOk job &&
    !(supportedTypes job).contains (job.type.getD ""))

/-- Rule 4 as the source implements it: the compatibility check fires
whenever `provider` is truthy and known and `type` is merely *present*
(truthy) — an unknown-but-present type also triggers it. -/
def ruleCompatCodeOk (job : JobDef) : Bool :=
  match CAPABILITIES (job.provider.getD "") with
  | some cap =>
      !(jsTruthy job.provider && jsTruthy job.type &&
        !cap.types.contains (job.type.getD ""))
  | none => true

/-- Spec rule 5: for `image-to-video`, an image path is required and must
exist on disk at validation time. -/
def ruleImageOk (fs : String → Bool) (job : JobDef) : Bool :=
  !(job.type == some "image-to-video") ||
    (jsTruthy job.image && fs (job.image.getD ""))

/-- Violation indicator: 1 when the rule is broken. -/
def viol (b : Bool) : Nat := if b then 0 else 1

/-- Number of violated rules per the specification's rule list (rule 4 in the
spec's wording). -/
def specRuleViolations (fs : String → Bool) (job : JobDef) : Nat :=
  viol (ruleProviderOk job) + viol (ruleTypeOk job) + viol (rulePromptOk job) +
    viol (ruleCompatSpecOk job) + viol (ruleImageOk fs job)

/-- Number of violated rules with rule 4 as the source implements it. -/
def codeRuleViolations (fs : String → Bool) (job : JobDef) : Nat :=
  viol (ruleProviderOk job) + viol (ruleTypeOk job) + viol (rulePromptOk job) +
    viol (ruleCompatCodeOk job) + viol (ruleImageOk fs job)

/-- A concrete `addJob` input used to instantiate general theorems. -/
def failedNewJob : NewJob :=
  { provider := "whisk", type := "text-to-image", prompt := some "sunset",
    status := some "failed", error := some "boom" }

/-- A concrete `addJob` input for a record created in status `running`. -/
def runningNewJob : NewJob :=
  { provider := "meta", type := "text-to-image", prompt := some "p",
    status := some "running" }

/-- A concrete `addJob` input for a record created in status `cancelled`. -/
def cancelledNewJob : NewJob :=
  { provider := "meta", type := "text-to-image", prompt := some "p",
    status := some "cancelled" }

/-! # Theorems -/

/-! ## Validation (claim C4) -/

lemma vProviderErrs_length (job : JobDef) :
    (vProviderErrs job).length = viol (ruleProviderOk job) := by
  by_cases h1 : jsTruthy job.provider <;>
    by_cases h2 : job.provider.getD "" ∈ VALID_PROVIDERS <;>
      simp [vProviderErrs, ruleProviderOk, viol, h1, h2]

lemma vProviderErrs_nil (job : JobDef) :
    vProviderErrs job = [] ↔ ruleProviderOk job = true := by
  by_cases h1 : jsTruthy job.provider <;>
    by_cases h2 : job.provider.getD "" ∈ VALID_PROVIDERS <;>
      simp [vProviderErrs, ruleProviderOk, h1, h2]

lemma vTypeErrs_length (job : JobDef) :
    (vTypeErrs job).length = viol (ruleTypeOk job) := by
  by_cases h1 : jsTruthy job.type <;>
    by_cases h2 : job.type.getD "" ∈ VALID_TYPES <;>
      simp [vTypeErrs, ruleTypeOk, viol, h1, h2]

lemma vTypeErrs_nil (job : JobDef) :
    vTypeErrs job = [] ↔ ruleTypeOk job = true := by
  by_cases h1 : jsTruthy job.type <;>
    by_cases h2 : job.type.getD "" ∈ VALID_TYPES <;>
      simp [vTypeErrs, ruleTypeOk, h1, h2]

lemma vPromptErrs_length (job : JobDef) :
    (vPromptErrs job).length = viol (rulePromptOk job) := by
  by_cases h1 : jsTruthy job.prompt <;>
    by_cases h2 : job.type = some "image-to-video" <;>
      simp [vPromptErrs, rulePromptOk, viol, h1, h2]

lemma vPromptErrs_nil (job : JobDef) :
    vPromptErrs job = [] ↔ rulePromptOk job = true := by
  by_cases h1 : jsTruthy job.prompt <;>
    by_cases h2 : job.type = some "image-to-video" <;>
      simp [vPromptErrs, rulePromptOk, h1, h2]

lemma vCompatErrs_length (job : JobDef) :
    (vCompatErrs job).length = viol (ruleCompatCodeOk job) := by
  rcases hcap : CAPABILITIES (job.provider.getD "") with _ | cap
  · simp [vCompatErrs, ruleCompatCodeOk, hcap, viol]
  · by_cases h1 : jsTruthy job.provider <;>
      by_cases h2 : jsTruthy job.type <;>
        by_cases h3 : job.type.getD "" ∈ cap.types <;>
          simp [vCompatErrs, ruleCompatCodeOk, hcap, viol, h1, h2, h3]

lemma vCompatErrs_nil (job : JobDef) :
    vCompatErrs job = [] ↔ ruleCompatCodeOk job = true := by
  rcases hcap : CAPABILITIES (job.provider.getD "") with _ | cap
  · simp [vCompatErrs, ruleCompatCodeOk, hcap]
  · by_cases h1 : jsTruthy job.provider <;>
      by_cases h2 : jsTruthy job.type <;>
        by_cases h3 : job.type.getD "" ∈ cap.types <;>
          simp [vCompatErrs, ruleCompatCodeOk, hcap, h1, h2, h3]

lemma vImageErrs_length (fs : String → Bool) (job : JobDef) :
    (vImageErrs fs job).length = viol (ruleImageOk fs job) := by
  by_cases h1 : job.type = some "image-to-video" <;>
    by_cases h2 : jsTruthy job.image <;>
      by_cases h3 : fs (job.image.getD "") <;>
        simp [vImageErrs, ruleImageOk, viol, h1, h2, h3]

lemma vImageErrs_nil (fs : String → Bool) (job : JobDef) :
    vImageErrs fs job = [] ↔ ruleImageOk fs job = true := by
  by_cases h1 : job.type = some "image-to-video" <;>
    by_cases h2 : jsTruthy job.image <;>
      by_cases h3 : fs (job.image.getD "") <;>
        simp [vImageErrs, ruleImageOk, h1, h2, h3]

lemma capabilities_isSome_of_valid (p : String)
    (h : VALID_PROVIDERS.contains p = true) : (CAPABILITIES p).isSome := by
  have hmem : p ∈ VALID_PROVIDERS := by
    simpa using h
  simp only [VALID_PROVIDERS, List.mem_cons, List.not_mem_nil, or_false] at hmem
  rcases hmem with h | h | h | h <;> subst h <;> rfl

/-- When both `provider` and `type` are valid, the source's compatibility
check coincides with the specification's rule 4. -/
lemma compat_code_eq_spec (job : JobDef) (h1 : ruleProviderOk job = true)
    (h2 : ruleTypeOk job = true) : ruleCompatCodeOk job = ruleCompatSpecOk job := by
  have hp : jsTruthy job.provider := by
    have := h1
    simp [ruleProviderOk] at this
    exact this.1
  have hcontains : VALID_PROVIDERS.contains (job.provider.getD "") = true := by
    have := h1
    simp [ruleProviderOk] at this
    simpa using this.2
  have ht : jsTruthy job.type := by
    have := h2
    simp [ruleTypeOk] at this
    exact this.1
  obtain ⟨cap, hcap⟩ := Option.isSome_iff_exists.mp
    (capabilities_isSome_of_valid _ hcontains)
  simp [ruleCompatCodeOk, ruleCompatSpecOk, supportedTypes, hcap, h1, h2, hp, ht]

/-- C4 (amended): `validateJob` is empty exactly when every rule of the
specification's list holds, and its error count equals one per violated rule
provided rule 4 is read the way the source implements it: the compatibility
check applies whenever the provider is valid and the type is *present*, even
when the type is not itself a known value. -/
theorem validateJob_rule_characterization (fs : String → Bool) (job : JobDef) :
    (validateJob fs job).length = codeRuleViolations fs job ∧
    (validateJob fs job = [] ↔
      (ruleProviderOk job = true ∧ ruleTypeOk job = true ∧
        rulePromptOk job = true ∧ ruleCompatSpecOk job = true ∧
        ruleImageOk fs job = true)) := by
  constructor
  · simp only [validateJob, List.length_append, vProviderErrs_length,
      vTypeErrs_length, vPromptErrs_length, vCompatErrs_length,
      vImageErrs_length, codeRuleViolations]
  · constructor
    · intro h
      simp only [validateJob, List.append_eq_nil] at h
      obtain ⟨⟨⟨⟨h1, h2⟩, h3⟩, h4⟩, h5⟩ := h
      have r1 := (vProviderErrs_nil job).mp h1
      have r2 := (vTypeErrs_nil job).mp h2
      have r3 := (vPromptErrs_nil job).mp h3
      have r4 := (vCompatErrs_nil job).mp h4
      have r5 := (vImageErrs_nil fs job).mp h5
      exact ⟨r1, r2, r3, (compat_code_eq_spec job r1 r2) ▸ r4, r5⟩
    · rintro ⟨r1, r2, r3, r4, r5⟩
      have r4' : ruleCompatCodeOk job = true := by
        rw [compat_code_eq_spec job r1 r2]; exact r4
      simp only [validateJob, List.append_eq_nil]
      exact ⟨⟨⟨⟨(vProviderErrs_nil job).mpr r1, (vTypeErrs_nil job).mpr r2⟩,
        (vPromptErrs_nil job).mpr r3⟩, (vCompatErrs_nil job).mpr r4'⟩,
        (vImageErrs_nil fs job).mpr r5⟩

/-- C4 counterexample: for a valid provider with a present-but-unknown type,
the source collects two errors (unknown type *and* provider-incompatibility),
while the specification's rule list counts a single violated rule — so
"one error per violated rule", with rule 4 as the spec words it, fails. -/
theorem validateJob_counterexample_rule_count :
    (validateJob (fun _ => false)
      { provider := some "meta", type := some "bogus", prompt := some "x" }).length = 2 ∧
    specRuleViolations (fun _ => false)
      { provider := some "meta", type := some "bogus", prompt := some "x" } = 1 := by
  constructor <;> rfl

/-! ## Job Store lemmas -/

lemma applyUpdate_id (now : Nat) (u : JobUpdate) (j : Job) :
    (applyUpdate now u j).id = j.id := by
  simp only [applyUpdate]
  split <;> rfl

lemma updateJobDb_length (db : Db) (id : String) (u : JobUpdate) (now : Nat) :
    (updateJobDb db id u now).length = db.length := by
  induction db with
  | nil => rfl
  | cons a rest ih =>
    simp only [updateJobDb]
    split <;> simp [ih]

lemma getJob_updateJobDb_self (db : Db) (id : String) (u : JobUpdate) (now : Nat)
    (j : Job) (h : getJob db id = some j) :
    getJob (updateJobDb db id u now) id = some (applyUpdate now u j) := by
  induction db with
  | nil => simp [getJob] at h
  | cons a rest ih =>
    by_cases ha : a.id = id
    · have hfound : getJob (a :: rest) id = some a := by
        simp [getJob, List.find?_cons_of_pos, ha]
      rw [hfound] at h
      obtain rfl : a = j := by injection h
      simp only [updateJobDb, if_pos ha, getJob]
      rw [List.find?_cons_of_pos]
      simp [applyUpdate_id, ha]
    · have hskip : getJob (a :: rest) id = getJob rest id := by
        simp [getJob, List.find?_cons_of_neg, ha]
      rw [hskip] at h
      simp only [updateJobDb, if_neg ha, getJob]
      rw [List.find?_cons_of_neg]
      · exact ih h
      · simp [ha]

/-- Non-terminal updates (status absent or anything other than `success` /
`failed`) leave `completedAt` and `duration` untouched. -/
lemma applyUpdate_nonterminal (now : Nat) (u : JobUpdate) (j : Job)
    (h : u.status ≠ some "success" ∧ u.status ≠ some "failed") :
    (applyUpdate now u j).completedAt = j.completedAt ∧
      (applyUpdate now u j).duration = j.duration := by
  simp only [applyUpdate]
  rw [if_neg]
  · exact ⟨rfl, rfl⟩
  · rintro (h1 | h2)
    · exact h.1 h1
    · exact h.2 h2

lemma applyUpdates_nonterminal (us : List (JobUpdate × Nat)) (j : Job)
    (h : ∀ p ∈ us, p.1.status ≠ some "success" ∧ p.1.status ≠ some "failed") :
    (applyUpdates j us).completedAt = j.completedAt ∧
      (applyUpdates j us).duration = j.duration := by
  induction us generalizing j with
  | nil => exact ⟨rfl, rfl⟩
  | cons p rest ih =>
    have hp := h p (List.mem_cons_self p rest)
    have hstep := applyUpdate_nonterminal p.2 p.1 j hp
    have hrest := ih (applyUpdate p.2 p.1 j) (fun q hq => h q (List.mem_cons_of_mem p hq))
    simp only [applyUpdates, List.foldl_cons] at hrest ⊢
    exact ⟨hrest.1.trans hstep.1, hrest.2.trans hstep.2⟩

/-! ## Claim C8: `completedAt` / `duration` only on terminal transitions -/

/-- C8: a store update stamps `completedAt` and derives `duration` exactly
when its status is `success` or `failed`; an update with any other status
(including `cancelled` and `running`) leaves both untouched; hence a record
created by `addJob` whose updates never carry a terminal status — e.g. a job
that ends `cancelled` — still has both fields `null`. -/
theorem completedAt_only_on_terminal (now : Nat) (u : JobUpdate) (j : Job) :
    (u.status = some "success" ∨ u.status = some "failed" →
      (applyUpdate now u j).completedAt = some now ∧
        (applyUpdate now u j).duration = some (durationSecs j.createdAt now)) ∧
    (u.status ≠ some "success" ∧ u.status ≠ some "failed" →
      (applyUpdate now u j).completedAt = j.completedAt ∧
        (applyUpdate now u j).duration = j.duration) ∧
    (∀ (db : Db) (nj : NewJob) (freshId : String) (created : Nat)
        (us : List (JobUpdate × Nat)),
      (∀ p ∈ us, p.1.status ≠ some "success" ∧ p.1.status ≠ some "failed") →
      (applyUpdates (addJob db nj freshId created).1 us).completedAt = none ∧
        (applyUpdates (addJob db nj freshId created).1 us).duration = none) := by
  refine ⟨?_, applyUpdate_nonterminal now u j, ?_⟩
  · intro h
    simp [applyUpdate, if_pos h]
  · intro db nj freshId created us hus
    have h0 := applyUpdates_nonterminal us (addJob db nj freshId created).1 hus
    simpa [addJob] using h0

/-- C8 witness: the cancel-then-running history of a concrete record never
stamps `completedAt`, while a terminal `failed` update does. -/
theorem completedAt_only_on_terminal_witness :
    (applyUpdate 7 { status := some "failed" }
        (addJob [] { provider := "meta", type := "text-to-image" } "j1" 2).1).completedAt
      = some 7 ∧
    (applyUpdates (addJob [] { provider := "meta", type := "text-to-image" } "j1" 2).1
        [({ status := some "cancelled" }, 5), ({ status := some "running" }, 6)]).completedAt
      = none := by
  constructor
  · exact ((completedAt_only_on_terminal 7 { status := some "failed" }
      (addJob [] { provider := "meta", type := "text-to-image" } "j1" 2).1).1
      (Or.inr rfl)).1
  · exact ((completedAt_only_on_terminal 0 {}
      (addJob [] { provider := "meta", type := "text-to-image" } "j1" 2).1).2.2
      [] { provider := "meta", type := "text-to-image" } "j1" 2
      [({ status := some "cancelled" }, 5), ({ status := some "running" }, 6)]
      (by intro p hp; fin_cases hp <;> exact ⟨by decide, by decide⟩)).1

/-! ## Claim C5: `submitJob` validation gate -/

/-- C5: when `validateJob` rejects a definition, `submitJob` returns
`success:false` with exactly that error list and the store is unchanged (no
record created, no count bump, nothing spawned); when it accepts, exactly one
record is created — unshifted with status `running` and the fresh id — the
result carries that id, and the caller gets it back with the execution merely
spawned, not awaited. -/
theorem submitJob_validation_gate (fs : String → Bool) (db : Db) (jd : JobDef)
    (outputPath freshId : String) (now cnt : Nat) :
    (validateJob fs jd ≠ [] →
      submitJob fs db jd outputPath freshId now cnt =
        ({ success := false, errors := validateJob fs jd }, db, cnt, none)) ∧
    (validateJob fs jd = [] →
      ∃ entry : Job,
        submitJob fs db jd outputPath freshId now cnt =
          ({ success := true, jobId := some entry.id }, (entry :: db).take 2000,
            cnt + 1, some ⟨entry, jd⟩) ∧
        entry.status = "running" ∧ entry.id = freshId ∧
        entry.provider = jd.provider.getD "" ∧ entry.type = jd.type.getD "" ∧
        entry.completedAt = none ∧ entry.duration = none) := by
  constructor
  · intro h
    simp [submitJob, h]
  · intro h
    refine ⟨(addJob db
      { provider := jd.provider.getD ""
        type := jd.type.getD ""
        prompt := some (jsOrElse jd.prompt "")
        imagePath := jsOrNull jd.image
        outputPath := some outputPath
        status := some "running"
        options := jd.options } freshId now).1, ?_, rfl, rfl, rfl, rfl, rfl, rfl⟩
    simp [submitJob, h, addJob]

/-- C5 witness: a definition missing every required field is rejected with a
non-empty error list and an untouched store; a complete valid definition
creates the one `running` record. -/
theorem submitJob_validation_gate_witness :
    (submitJob (fun _ => true) [] {} "out.png" "idA" 3 0 =
      ({ success := false, errors := validateJob (fun _ => true) {} }, [], 0, none)) ∧
    validateJob (fun _ => true) {} ≠ [] ∧
    (∃ entry : Job,
      submitJob (fun _ => true) []
        { provider := some "grok", type := some "text-to-image",
          prompt := some "a cat" } "out.png" "idA" 3 0 =
        ({ success := true, jobId := some entry.id }, (entry :: []).take 2000,
          0 + 1,
          some ⟨entry,
                { provider := some "grok",
                  type := some "text-to-image", prompt := some "a cat" }⟩) ∧
      entry.status = "running" ∧ entry.id = "idA" ∧
      entry.provider = "grok" ∧ entry.type = "text-to-image" ∧
      entry.completedAt = none ∧ entry.duration = none) := by
  refine ⟨?_, by decide, ?_⟩
  · exact (submitJob_validation_gate (fun _ => true) [] {} "out.png" "idA" 3 0).1
      (by decide)
  · exact (submitJob_validation_gate (fun _ => true) []
      { provider := some "grok", type := some "text-to-image",
        prompt := some "a cat" } "out.png" "idA" 3 0).2 (by decide)

/-! ## Claim C7: `retryJob` -/

/-- C7: `retryJob` on an unknown id returns `success:false` with error
`Job not found` and an unchanged store; on a known id it resets the existing
record to `running` with `error` cleared to `null` (store length unchanged:
no new record) and hands `_executeJob` the same record — same id, provider,
type, prompt, image and options rebuilt from the record itself — succeeding
unconditionally, with no re-validation of the rebuilt definition. -/
theorem retryJob_spec (db : Db) (id : String) (now : Nat) :
    (getJob db id = none →
      retryJob db id now = ({ success := false, errors := ["Job not found"] }, db, none)) ∧
    (∀ job : Job, getJob db id = some job →
      retryJob db id now =
        ({ success := true, jobId := some id },
          updateJobDb db id { status := some "running", error := some none } now,
          some ⟨{ job with status := "running", error := none, id := id },
            { provider := some job.provider
              type := some job.type
              prompt := some job.prompt
              image := job.imagePath
              options := job.options
              outputFolder := some (dirname (job.outputPath.getD "")) }⟩) ∧
      (updateJobDb db id { status := some "running", error := some none } now).length
        = db.length ∧
      getJob (updateJobDb db id { status := some "running", error := some none } now) id
        = some { job with status := "running", error := none }) := by
  constructor
  · intro h
    simp [retryJob, h]
  · intro job h
    refine ⟨?_, updateJobDb_length db id _ now, ?_⟩
    · simp only [retryJob, h]
      have : applyUpdate now { status := some "running", error := some none } job
          = { job with status := "running", error := none } := by
        simp [applyUpdate]
      rw [this]
    · rw [getJob_updateJobDb_self db id _ now job h]
      simp [applyUpdate]

/-- C7 witness: retry of a missing id fails with `Job not found`; retry of a
concrete `failed` record resets it to `running`, clears the error, keeps the
store size, and re-spawns the very same record. -/
theorem retryJob_spec_witness :
    (retryJob [] "nope" 9 = ({ success := false, errors := ["Job not found"] }, [], none)) ∧
    (∀ job : Job,
      getJob [(addJob [] failedNewJob "jid" 1).1] "jid" = some job →
      (retryJob [(addJob [] failedNewJob "jid" 1).1] "jid" 9).1.success = true) := by
  constructor
  · exact (retryJob_spec [] "nope" 9).1 (by decide)
  · intro job h
    rw [((retryJob_spec [(addJob [] failedNewJob "jid" 1).1] "jid" 9).2 job h).1]

/-! ## Claim C3: cancellation wins the race with the agent call -/

/-- C3: with an execution registered for job `id`, `cancelJob` returns
`true`, removes the job from the active registry and forces the store record
to `cancelled`; and when the agent call then resolves — with *any* result
`r`, in particular a successful one — the execution's tail sees the
cancellation flag and records `cancelled` again, so the final stored status
is `cancelled`. -/
theorem cancelJob_wins_race (ctx : ExecCtx) (db : Db) (id prov : String)
    (now1 now2 : Nat) (outPath : Option String) (r : AgentResult) (j : Job)
    (h : getJob db id = some j) :
    (cancelJob (executeJobStart ctx id prov) db id now1).1 = true ∧
    (cancelJob (executeJobStart ctx id prov) db id now1).2.1.registry = ctx.registry ∧
    (getJob (cancelJob (executeJobStart ctx id prov) db id now1).2.2 id).map Job.status
      = some "cancelled" ∧
    (getJob (executeJobFinish (cancelJob (executeJobStart ctx id prov) db id now1).2.1
        (cancelJob (executeJobStart ctx id prov) db id now1).2.2 id outPath
        (.ok r) now2).2 id).map Job.status = some "cancelled" := by
  have hcancel : cancelJob (executeJobStart ctx id prov) db id now1 =
      (true,
       { flags := (id, true) :: ctx.flags, registry := ctx.registry },
       updateJobDb db id { status := some "cancelled" } now1) := by
    simp [cancelJob, executeJobStart, lookupEntry, removeEntry, setFlag]
  have hdb1 : getJob (updateJobDb db id { status := some "cancelled" } now1) id
      = some (applyUpdate now1 { status := some "cancelled" } j) :=
    getJob_updateJobDb_self db id _ now1 j h
  refine ⟨by rw [hcancel], by rw [hcancel], ?_, ?_⟩
  · rw [hcancel, hdb1]
    simp [applyUpdate]
  · rw [hcancel]
    have hflag : (lookupEntry (((id, true)) :: ctx.flags) id).getD false = true := by
      simp [lookupEntry]
    simp only [executeJobFinish, hflag, if_pos]
    rw [getJob_updateJobDb_self _ id _ now2 _ hdb1]
    simp [applyUpdate]

/-- C3 witness: a concrete one-record store, a registered execution, a cancel
call, then a successful agent resolution — the final stored status is
`cancelled`. -/
theorem cancelJob_wins_race_witness :
    (getJob (executeJobFinish
        (cancelJob (executeJobStart {} "jid" "meta")
          [(addJob [] runningNewJob "jid" 1).1] "jid" 5).2.1
        (cancelJob (executeJobStart {} "jid" "meta")
          [(addJob [] runningNewJob "jid" 1).1] "jid" 5).2.2
        "jid" (some "out.png") (.ok { success := true }) 8).2 "jid").map Job.status
      = some "cancelled" :=
  (cancelJob_wins_race {} [(addJob [] runningNewJob "jid" 1).1] "jid" "meta" 5 8
    (some "out.png") { success := true } (addJob [] runningNewJob "jid" 1).1
    (by rfl)).2.2.2

/-! ## Claim C9: idle teardown and the job-count discipline -/

/-- C9 counterexample: in the wrapper spawned by `submitJob`, the decrement
of the provider's job count (line 299) happens strictly *before*
`_maybeCloseProvider` evaluates teardown eligibility (line 301) — the claim's
"decremented only after teardown eligibility has been evaluated" is the
opposite of the source's order. -/
theorem decrement_precedes_teardown_eval :
    submitWrapperTrace.indexOf WEvent.decrCount <
      submitWrapperTrace.indexOf WEvent.evalTeardown := by decide

/-- C9 (amended): the count is incremented before admission and decremented
immediately *before* teardown-eligibility evaluation, with the release /
decrement / evaluation sequence forming one non-interleavable step; at
evaluation time the count therefore covers exactly the remaining work, and
`_maybeCloseProvider` never tears the agent down while jobs remain or a batch
runs, and stops-and-discards a live agent exactly when neither holds. -/
theorem teardown_lifecycle :
    (submitWrapperTrace.indexOf WEvent.incrCount <
      submitWrapperTrace.indexOf WEvent.semAcquire) ∧
    (submitWrapperTrace.indexOf WEvent.semReleaseEv <
      submitWrapperTrace.indexOf WEvent.decrCount) ∧
    (submitWrapperTrace.indexOf WEvent.decrCount + 1 =
      submitWrapperTrace.indexOf WEvent.evalTeardown) ∧
    (∀ (cnt : Nat) (br : Bool) (conv : Option Conv), 0 < cnt →
      maybeCloseProvider cnt br conv = conv) ∧
    (∀ (cnt : Nat) (conv : Option Conv), maybeCloseProvider cnt true conv = conv) ∧
    (∀ (cnt : Nat) (br : Bool) (c : Conv), c.alive = true →
      (maybeCloseProvider cnt br (some c) = none ↔ cnt = 0 ∧ br = false)) := by
  refine ⟨by decide, by decide, by decide, ?_, ?_, ?_⟩
  · intro cnt br conv hpos
    simp [maybeCloseProvider, hpos]
  · intro cnt conv
    by_cases hc : cnt > 0 <;> simp [maybeCloseProvider, hc]
  · intro cnt br c halive
    by_cases hc : cnt > 0
    · simp [maybeCloseProvider, hc]
      omega
    · have hc0 : cnt = 0 := by omega
      subst hc0
      cases br <;> simp [maybeCloseProvider, halive]

/-- C9 witness: a live agent survives while one job remains, and is torn down
once the count reaches zero with no batch running. -/
theorem teardown_lifecycle_witness :
    maybeCloseProvider 1 false (some ⟨true⟩) = some ⟨true⟩ ∧
    maybeCloseProvider 0 false (some ⟨true⟩) = none := by
  constructor
  · exact teardown_lifecycle.2.2.2.1 1 false (some ⟨true⟩) (by decide)
  · exact (teardown_lifecycle.2.2.2.2.2 0 false ⟨true⟩ rfl).mpr ⟨rfl, rfl⟩

/-! ## Claim C1: the per-provider semaphore bounds concurrency -/

lemma sem_inv_preserved (s s' : SemSys) (hs : SemStep s s')
    (h : SemInv s ∧ s.max = 4) : SemInv s' ∧ s'.max = 4 := by
  obtain ⟨⟨hcount, hle⟩, hmax⟩ := h
  cases hs with
  | submitRun j hlt =>
    refine ⟨⟨?_, ?_⟩, hmax⟩
    · show s.count + 1 = ((j :: s.running).length : Int)
      simp only [List.length_cons]
      omega
    · show s.count + 1 ≤ s.max
      omega
  | submitWait j hge =>
    exact ⟨⟨hcount, hle⟩, hmax⟩
  | finish j hmem =>
    have hlen : 0 < s.running.length := List.length_pos.mpr (List.ne_nil_of_mem hmem)
    have herase : (s.running.erase j).length = s.running.length - 1 :=
      List.length_erase_of_mem hmem
    rcases hq : s.queue with _ | ⟨w, ws⟩
    · simp only [semRelease, hq]
      refine ⟨⟨?_, ?_⟩, hmax⟩
      · show s.count - 1 = ((s.running.erase j).length : Int)
        omega
      · show s.count - 1 ≤ s.max
        omega
    · simp only [semRelease, hq]
      refine ⟨⟨?_, ?_⟩, hmax⟩
      · show s.count - 1 + 1 = ((w :: s.running.erase j).length : Int)
        simp only [List.length_cons]
        omega
      · show s.count - 1 + 1 ≤ s.max
        omega

lemma sem_reachable_inv (s : SemSys) (h : SemReachable s) : SemInv s ∧ s.max = 4 := by
  induction h with
  | refl => exact ⟨⟨rfl, by decide⟩, rfl⟩
  | tail _ hstep ih => exact sem_inv_preserved _ _ hstep ih

/-- C1: in every state reachable by any interleaving of submissions and
completions, the number of in-flight executions equals the semaphore's
count and never exceeds its configured maximum of 4; and the wrapper spawned
by `submitJob` acquires the semaphore before executing and releases it
exactly once on its (sole) exit path. -/
theorem semaphore_bounds_inflight (s : SemSys) (h : SemReachable s) :
    (s.running.length : Int) ≤ 4 ∧ (s.count = (s.running.length : Int)) ∧
    s.max = 4 ∧
    submitWrapperTrace.indexOf WEvent.semAcquire <
      submitWrapperTrace.indexOf WEvent.execJob ∧
    submitWrapperTrace.count WEvent.semReleaseEv = 1 := by
  obtain ⟨⟨hcount, hle⟩, hmax⟩ := sem_reachable_inv s h
  refine ⟨?_, hcount, hmax, by decide, by decide⟩
  rw [← hcount, ← hmax]
  exact hle

/-- C1 witness: the invariant holds in a concrete reachable state (two
submissions, one completion). -/
theorem semaphore_bounds_inflight_witness :
    ((initSem.running.length : Int) ≤ 4 ∧
      (initSem.count = (initSem.running.length : Int)) ∧ initSem.max = 4 ∧
      submitWrapperTrace.indexOf WEvent.semAcquire <
        submitWrapperTrace.indexOf WEvent.execJob ∧
      submitWrapperTrace.count WEvent.semReleaseEv = 1) :=
  semaphore_bounds_inflight initSem Relation.ReflTransGen.refl

/-! ## Batch pipeline lemmas -/

lemma tallyOutcome_sum (db : Db) (id : String) (c f : Nat) :
    (tallyOutcome db id c f).1 + (tallyOutcome db id c f).2 = c + f + 1 := by
  cases hg : getJob db id with
  | none => simp [tallyOutcome, hg]; omega
  | some j =>
    by_cases hs : j.status = "success" <;> simp [tallyOutcome, hg, hs] <;> omega

lemma runPipeline_nil (flag : Nat → Bool) (exec : Nat → Db → Db)
    (eC eF : Nat → Nat) (dm : Nat) (i : Nat) (db : Db) (c f : Nat) :
    runPipeline flag exec eC eF dm [] i db c f = ⟨db, c, f, []⟩ := rfl

/-- One loop iteration when the early-exit check does not fire. -/
lemma runPipeline_cons_run (flag : Nat → Bool) (exec : Nat → Db → Db)
    (eC eF : Nat → Nat) (dm : Nat) (job : Job) (rest : List Job) (i : Nat)
    (db : Db) (c f : Nat) (h : flag i = true) :
    runPipeline flag exec eC eF dm (job :: rest) i db c f =
      ⟨(runPipeline flag exec eC eF dm rest (i + 1)
          (exec i (updateJobDb db job.id { status := some "running" } 0))
          (tallyOutcome (exec i (updateJobDb db job.id { status := some "running" } 0))
            job.id (c + eC i) (f + eF i)).1
          (tallyOutcome (exec i (updateJobDb db job.id { status := some "running" } 0))
            job.id (c + eC i) (f + eF i)).2).db,
       (runPipeline flag exec eC eF dm rest (i + 1)
          (exec i (updateJobDb db job.id { status := some "running" } 0))
          (tallyOutcome (exec i (updateJobDb db job.id { status := some "running" } 0))
            job.id (c + eC i) (f + eF i)).1
          (tallyOutcome (exec i (updateJobDb db job.id { status := some "running" } 0))
            job.id (c + eC i) (f + eF i)).2).completed,
       (runPipeline flag exec eC eF dm rest (i + 1)
          (exec i (updateJobDb db job.id { status := some "running" } 0))
          (tallyOutcome (exec i (updateJobDb db job.id { status := some "running" } 0))
            job.id (c + eC i) (f + eF i)).1
          (tallyOutcome (exec i (updateJobDb db job.id { status := some "running" } 0))
            job.id (c + eC i) (f + eF i)).2).failed,
       PEvent.jobStart i :: PEvent.execEnd i ::
         PEvent.progress i
           (tallyOutcome (exec i (updateJobDb db job.id { status := some "running" } 0))
             job.id (c + eC i) (f + eF i)).1
           (tallyOutcome (exec i (updateJobDb db job.id { status := some "running" } 0))
             job.id (c + eC i) (f + eF i)).2 ::
         (if rest.isEmpty then [] else [PEvent.delay i dm]) ++
           (runPipeline flag exec eC eF dm rest (i + 1)
              (exec i (updateJobDb db job.id { status := some "running" } 0))
              (tallyOutcome (exec i (updateJobDb db job.id { status := some "running" } 0))
                job.id (c + eC i) (f + eF i)).1
              (tallyOutcome (exec i (updateJobDb db job.id { status := some "running" } 0))
                job.id (c + eC i) (f + eF i)).2).trace⟩ := by
  conv_lhs => rw [runPipeline]
  rw [if_neg (by simp [h])]

/-- One loop iteration when the early-exit check fires. -/
lemma runPipeline_cons_break (flag : Nat → Bool) (exec : Nat → Db → Db)
    (eC eF : Nat → Nat) (dm : Nat) (job : Job) (rest : List Job) (i : Nat)
    (db : Db) (c f : Nat) (h : flag i = false)
    (hpos : 0 < c + eC i + (f + eF i)) :
    runPipeline flag exec eC eF dm (job :: rest) i db c f
      = ⟨db, c + eC i, f + eF i, []⟩ := by
  conv_lhs => rw [runPipeline]
  rw [if_pos ⟨by simp [h], hpos⟩]

/-- With the `_running` flag up at every check, a pipeline over `queue`
starting at index `i` starts the jobs `i, i+1, …` in order, runs each to
completion before the next starts, and sleeps the delay after every job but
the queue's last. -/
lemma runPipeline_run_all (flag : Nat → Bool) (exec : Nat → Db → Db)
    (eC eF : Nat → Nat) (dm : Nat) (hflag : ∀ i, flag i = true) :
    ∀ (queue : List Job) (i : Nat) (db : Db) (c f : Nat),
      startIdxs (runPipeline flag exec eC eF dm queue i db c f).trace
          = countUp i queue.length ∧
      execEvs (runPipeline flag exec eC eF dm queue i db c f).trace
          = (countUp i queue.length).flatMap (fun k => [(false, k), (true, k)]) ∧
      delayEvs (runPipeline flag exec eC eF dm queue i db c f).trace
          = (countUp i (queue.length - 1)).map (fun k => (k, dm)) := by
  intro queue
  induction queue with
  | nil =>
    intro i db c f
    simp [runPipeline_nil, startIdxs, execEvs, delayEvs, countUp]
  | cons job rest ih =>
    intro i db c f
    obtain ⟨ih1, ih2, ih3⟩ := ih (i + 1)
      (exec i (updateJobDb db job.id { status := some "running" } 0))
      (tallyOutcome (exec i (updateJobDb db job.id { status := some "running" } 0))
        job.id (c + eC i) (f + eF i)).1
      (tallyOutcome (exec i (updateJobDb db job.id { status := some "running" } 0))
        job.id (c + eC i) (f + eF i)).2
    rw [runPipeline_cons_run flag exec eC eF dm job rest i db c f (hflag i)]
    refine ⟨?_, ?_, ?_⟩
    · simp only [startIdxs, List.filterMap_cons, List.filterMap_append] at ih1 ⊢
      cases hre : rest.isEmpty <;>
        simp [ih1, countUp]
    · simp only [execEvs, List.filterMap_cons, List.filterMap_append] at ih2 ⊢
      cases hre : rest.isEmpty <;>
        simp [ih2, countUp]
    · simp only [delayEvs, List.filterMap_cons, List.filterMap_append] at ih3 ⊢
      cases hre : rest.isEmpty
      · have hne : rest.length ≠ 0 := by
          simpa [List.isEmpty_iff_length_eq_zero] using hre
        have hlen : rest.length = (rest.length - 1) + 1 := by omega
        simp only [List.length_cons, Nat.add_sub_cancel]
        rw [hlen]
        simp [ih3, countUp, Nat.add_sub_cancel]
      · have hnil : rest = [] := List.isEmpty_iff.mp hre
        subst hnil
        simp [runPipeline_nil, delayEvs, countUp]

/-- If the flag is up before check `m` and down at check `m` (with `m ≥ 1`, a
between-jobs check, so the aggregate is already positive there), the pipeline
starts exactly jobs `i, …, m-1` — each run to completion — and never starts
job `m`. -/
lemma runPipeline_stops (flag : Nat → Bool) (exec : Nat → Db → Db)
    (eC eF : Nat → Nat) (dm : Nat) (m : Nat) (hm : 1 ≤ m)
    (hf : ∀ k, k < m → flag k = true) (hstop : flag m = false) :
    ∀ (queue : List Job) (i : Nat) (db : Db) (c f : Nat),
      i ≤ m → m < i + queue.length → i ≤ c + f →
      startIdxs (runPipeline flag exec eC eF dm queue i db c f).trace
          = countUp i (m - i) ∧
      execEvs (runPipeline flag exec eC eF dm queue i db c f).trace
          = (countUp i (m - i)).flatMap (fun k => [(false, k), (true, k)]) := by
  intro queue
  induction queue with
  | nil =>
    intro i db c f him hlen hcf
    simp at hlen
    omega
  | cons job rest ih =>
    intro i db c f him hlen hcf
    by_cases hi : i = m
    · subst hi
      have hpos : 0 < c + eC i + (f + eF i) := by omega
      rw [runPipeline_cons_break flag exec eC eF dm job rest i db c f hstop hpos]
      have hsub : i - i = 0 := by omega
      simp [startIdxs, execEvs, countUp, hsub]
    · have hi' : i < m := lt_of_le_of_ne him hi
      have hsum := tallyOutcome_sum
        (exec i (updateJobDb db job.id { status := some "running" } 0))
        job.id (c + eC i) (f + eF i)
      obtain ⟨ih1, ih2⟩ := ih (i + 1)
        (exec i (updateJobDb db job.id { status := some "running" } 0))
        (tallyOutcome (exec i (updateJobDb db job.id { status := some "running" } 0))
          job.id (c + eC i) (f + eF i)).1
        (tallyOutcome (exec i (updateJobDb db job.id { status := some "running" } 0))
          job.id (c + eC i) (f + eF i)).2
        (by omega) (by simp at hlen ⊢; omega) (by omega)
      rw [runPipeline_cons_run flag exec eC eF dm job rest i db c f (hf i hi')]
      have hcount : m - i = (m - (i + 1)) + 1 := by omega
      constructor
      · simp only [startIdxs, List.filterMap_cons, List.filterMap_append] at ih1 ⊢
        rw [hcount]
        cases hre : rest.isEmpty <;> simp [ih1, countUp]
      · simp only [execEvs, List.filterMap_cons, List.filterMap_append] at ih2 ⊢
        rw [hcount]
        cases hre : rest.isEmpty <;> simp [ih2, countUp]

/-! ## Claim C2: intra-provider batch pipeline is sequential, in order,
with the inter-job delay between jobs only -/

/-- C2: with the batch `_running` flag up throughout, a provider pipeline
starts its jobs in submission order `0, 1, …, n-1`; the execution events form
the strictly serial word `start 0, end 0, start 1, end 1, …` — job `k+1`'s
`running` transition comes only after job `k`'s execution has completed, so
at most one job of the pipeline runs at a time; and the configured inter-job
delay `(settings.delayBetween || 10) * 1000` is slept exactly after jobs
`0, …, n-2` — never after the last job. -/
theorem pipeline_sequential_and_delay (flag : Nat → Bool) (exec : Nat → Db → Db)
    (eC eF : Nat → Nat) (settingsDelay : Option Nat) (queue : List Job) (db : Db)
    (hflag : ∀ i, flag i = true) :
    startIdxs (runPipeline flag exec eC eF (delayMsOf settingsDelay)
        queue 0 db 0 0).trace = countUp 0 queue.length ∧
    execEvs (runPipeline flag exec eC eF (delayMsOf settingsDelay)
        queue 0 db 0 0).trace
      = (countUp 0 queue.length).flatMap (fun k => [(false, k), (true, k)]) ∧
    delayEvs (runPipeline flag exec eC eF (delayMsOf settingsDelay)
        queue 0 db 0 0).trace
      = (countUp 0 (queue.length - 1)).map (fun k => (k, delayMsOf settingsDelay)) :=
  runPipeline_run_all flag exec eC eF (delayMsOf settingsDelay) hflag queue 0 db 0 0

/-- C2 witness: a concrete two-job pipeline produces `start 0, end 0,
start 1, end 1` with a single delay, after job 0 only. -/
theorem pipeline_sequential_and_delay_witness :
    startIdxs (runPipeline (fun _ => true) (fun _ d => d) (fun _ => 0) (fun _ => 0)
        (delayMsOf none)
        [(addJob [] runningNewJob "a" 0).1, (addJob [] runningNewJob "b" 0).1]
        0 [] 0 0).trace = countUp 0 2 ∧
    execEvs (runPipeline (fun _ => true) (fun _ d => d) (fun _ => 0) (fun _ => 0)
        (delayMsOf none)
        [(addJob [] runningNewJob "a" 0).1, (addJob [] runningNewJob "b" 0).1]
        0 [] 0 0).trace
      = (countUp 0 2).flatMap (fun k => [(false, k), (true, k)]) ∧
    delayEvs (runPipeline (fun _ => true) (fun _ d => d) (fun _ => 0) (fun _ => 0)
        (delayMsOf none)
        [(addJob [] runningNewJob "a" 0).1, (addJob [] runningNewJob "b" 0).1]
        0 [] 0 0).trace = (countUp 0 1).map (fun k => (k, delayMsOf none)) :=
  pipeline_sequential_and_delay (fun _ => true) (fun _ d => d) (fun _ => 0)
    (fun _ => 0) none
    [(addJob [] runningNewJob "a" 0).1, (addJob [] runningNewJob "b" 0).1]
    [] (fun _ => rfl)

/-! ## Claim C6: clearing the batch flag stops pipelines between jobs -/

/-- C6: if the `_running` flag is up at the checks before jobs `0, …, m-1`
and found down at the between-jobs check before job `m` (`1 ≤ m`), the
pipeline starts exactly jobs `0, …, m-1` and never starts job `m`; every
started job's execution runs to completion (the start/end word is serial and
complete — the mechanism never interrupts a job mid-job); and `cancelAll`
clears the batch-level `_running` flag. -/
theorem pipeline_stops_between_jobs (flag : Nat → Bool) (exec : Nat → Db → Db)
    (eC eF : Nat → Nat) (dm : Nat) (queue : List Job) (db : Db) (m : Nat)
    (hm : 1 ≤ m) (hlen : m < queue.length)
    (hf : ∀ k, k < m → flag k = true) (hstop : flag m = false) :
    startIdxs (runPipeline flag exec eC eF dm queue 0 db 0 0).trace
        = countUp 0 m ∧
    execEvs (runPipeline flag exec eC eF dm queue 0 db 0 0).trace
        = (countUp 0 m).flatMap (fun k => [(false, k), (true, k)]) ∧
    (∀ (st : OrchState) (now : Nat), (cancelAll st now).running = false) := by
  obtain ⟨h1, h2⟩ := runPipeline_stops flag exec eC eF dm m hm hf hstop
    queue 0 db 0 0 (by omega) (by omega) (by omega)
  exact ⟨by simpa using h1, by simpa using h2, fun st now => rfl⟩

/-- C6 witness: a two-job pipeline whose flag drops at the check before job 1
runs job 0 to completion and never starts job 1. -/
theorem pipeline_stops_between_jobs_witness :
    startIdxs (runPipeline (fun k => k == 0) (fun _ d => d) (fun _ => 0)
        (fun _ => 0) 1000
        [(addJob [] runningNewJob "a" 0).1, (addJob [] runningNewJob "b" 0).1]
        0 [] 0 0).trace = countUp 0 1 ∧
    execEvs (runPipeline (fun k => k == 0) (fun _ d => d) (fun _ => 0)
        (fun _ => 0) 1000
        [(addJob [] runningNewJob "a" 0).1, (addJob [] runningNewJob "b" 0).1]
        0 [] 0 0).trace
      = (countUp 0 1).flatMap (fun k => [(false, k), (true, k)]) := by
  have h := pipeline_stops_between_jobs (fun k => k == 0) (fun _ d => d)
    (fun _ => 0) (fun _ => 0) 1000
    [(addJob [] runningNewJob "a" 0).1, (addJob [] runningNewJob "b" 0).1]
    [] 1 (by decide) (by decide)
    (fun k hk => by
      have hk0 : k = 0 := by omega
      subst hk0
      rfl)
    (by decide)
  exact ⟨h.1, h.2.1⟩

/-! ## Claim C10: the batch aggregate is tallied from the re-read status -/

/-- C10: after a pipeline job finishes, the aggregate is updated from the
re-read store record: `completed` is incremented iff the stored status is
`success`; any other stored status — `cancelled` included — and a missing
record increment `failed`; and the `batch:progress` event the pipeline emits
for iteration `i` carries exactly those tallied counts. -/
theorem batch_tally_from_stored_status (db : Db) (id : String) (c f : Nat) :
    (∀ j, getJob db id = some j → j.status = "success" →
      tallyOutcome db id c f = (c + 1, f)) ∧
    (∀ j, getJob db id = some j → j.status ≠ "success" →
      tallyOutcome db id c f = (c, f + 1)) ∧
    (getJob db id = none → tallyOutcome db id c f = (c, f + 1)) ∧
    (∀ (flag : Nat → Bool) (exec : Nat → Db → Db) (eC eF : Nat → Nat) (dm : Nat)
        (job : Job) (rest : List Job) (i : Nat) (db' : Db) (c' f' : Nat),
      flag i = true →
      ∃ tl, (runPipeline flag exec eC eF dm (job :: rest) i db' c' f').trace =
        PEvent.jobStart i :: PEvent.execEnd i ::
          PEvent.progress i
            (tallyOutcome (exec i (updateJobDb db' job.id { status := some "running" } 0))
              job.id (c' + eC i) (f' + eF i)).1
            (tallyOutcome (exec i (updateJobDb db' job.id { status := some "running" } 0))
              job.id (c' + eC i) (f' + eF i)).2 :: tl) := by
  refine ⟨?_, ?_, ?_, ?_⟩
  · intro j hg hs
    simp [tallyOutcome, hg, hs]
  · intro j hg hs
    simp [tallyOutcome, hg, hs]
  · intro hg
    simp [tallyOutcome, hg]
  · intro flag exec eC eF dm job rest i db' c' f' h
    rw [runPipeline_cons_run flag exec eC eF dm job rest i db' c' f' h]
    exact ⟨_, rfl⟩

/-- C10 witness: a `cancelled` record tallies as a failure, and a missing
record does too. -/
theorem batch_tally_from_stored_status_witness :
    tallyOutcome [(addJob [] cancelledNewJob "jid" 1).1] "jid" 3 4 = (3, 5) ∧
    tallyOutcome [] "ghost" 0 0 = (0, 1) := by
  constructor
  · exact (batch_tally_from_stored_status
      [(addJob [] cancelledNewJob "jid" 1).1] "jid" 3 4).2.1
      (addJob [] cancelledNewJob "jid" 1).1 (by rfl) (by decide)
  · exact (batch_tally_from_stored_status [] "ghost" 0 0).2.2.1 (by rfl)

end Orch
